import Mathlib

/-!
Verification development for the persistence core of the `mcp-agent-system`
repository (TypeScript).  The TypeScript sources are shallowly embedded:

* JavaScript dynamic values that can appear in a table row, a filter object
  or a returned entity object are modelled by `Val`.  Serialized text forms
  (ISO-8601 date strings produced by `Date.toISOString`, JSON text produced
  by `JSON.stringify`) are modelled by carrying the serialized payload
  (`Val.isoText`, `Val.jsonText`): these platform codecs are injective and
  `new Date(
  iso)` / `JSON.parse(text)` recover the payload exactly, which is a fact
  about the JavaScript platform, not about this repository's code.
* SQL execution against the single SQLite connection is modelled
  relationally: a table is a list of rows in storage (insertion) order, a
  `SELECT` with the compiled WHERE/ORDER/LIMIT fragments filters, sorts and
  slices that list, `INSERT` appends and yields the driver `lastID`
  (the SQLite rowid), `UPDATE`/`DELETE` map/filter the list.
* Asynchronous repository calls are modelled as pure state-passing
  functions; the claims under study are all about single sequential call
  chains.
* The process clock (`new Date()`) is passed in explicitly as an integer
  number of milliseconds since the epoch (`now` parameters).

JavaScript numbers are modelled by `ℚ` (exact rationals; none of the code
under study exercises float rounding), JavaScript string utilities used by
the code (`toLowerCase`, `split(/\W+/)`, `Set`) are given structurally
recursive implementations so that concrete instances evaluate inside the
kernel.
-/

/-- JSON values, used to model the payload of `JSON.stringify`/`JSON.parse`
    round trips through TEXT columns (`metadata`, `tags`, `relationships`). -/
inductive Json where
  | null
  | bool (b : Bool)
  | num (q : ℚ)
  | str (s : String)
  | arr (elems : List Json)
  | obj (fields : List (String × Json))

/-- JavaScript runtime values appearing in entity objects, filter objects and
    table rows.  `undefined` is JavaScript `undefined` (a missing object
    property), `date ms` is a live `Date` object, `isoText ms` is the
    ISO-8601 string `new Date(ms).toISOString()` (kept as its payload; the
    encoding is injective), `jsonText j` is the string `JSON.stringify(v)`
    for the live value `v` modelled by `j`, and `live j` is a live
    structured (array/object) value. -/
inductive Val where
  | undefined
  | null
  | bool (b : Bool)
  | num (q : ℚ)
  | str (s : String)
  | date (ms : ℤ)
  | isoText (ms : ℤ)
  | jsonText (j : Json)
  | live (j : Json)

/-- JavaScript truthiness of a `Val`.  `date` objects and serialized strings
    are always truthy (an ISO or JSON string is never empty); live objects
    and arrays are truthy, live primitives follow the primitive rules. -/
def Val.truthy : Val → Bool
  | .undefined => false
  | .null => false
  | .bool b => b
  | .num q => q ≠ 0
  | .str s => s ≠ ""
  | .date _ => true
  | .isoText _ => true
  | .jsonText _ => true
  | .live .null => false
  | .live (.bool b) => b
  | .live (.num q) => q ≠ 0
  | .live (.str s) => s ≠ ""
  | .live (.arr _) => true
  | .live (.obj _) => true

/-- Whether a `Val` is JavaScript `undefined` (used for `!== undefined`
    checks in the source). -/
def Val.isUndefined : Val → Bool
  | .undefined => true
  | _ => false

/-- String interpolation `${v}` of a value into a template literal, for the
    value shapes the filter compiler actually interpolates (column names are
    strings, `limit`/`offset` are integral numbers). -/
def Val.display : Val → String
  | .str s => s
  | .num q => if q.den = 1 then toString q.num else toString q
  | .bool b => toString b
  | .null => "null"
  | .undefined => "undefined"
  | _ => ""

/-- A JavaScript record / table row: an association list of properties in
    insertion order.  (A real JS object has no duplicate keys; lookups take
    the first binding.) -/
def Row : Type := List (String × Val)

/-- Property read `obj[k]`: the first binding of `k`, `undefined` if the
    property is missing. -/
def getVal (r : Row) (k : String) : Val :=
  match r.find? (fun kv => kv.1 = k) with
  | some kv => kv.2
  | none => .undefined

/-- Property write `{...obj, k: v}` (modelled as: drop old bindings of `k`,
    append the new one; key order is irrelevant to every lookup). -/
def objSet (r : Row) (k : String) (v : Val) : Row :=
  (r.filter (fun kv => kv.1 ≠ k)) ++ [(k, v)]

/-! ### Filter compiler (`BaseSQLiteRepository.buildWhereClause` /
    `buildOrderAndLimit`, src/services/database/sqlite/base-repository.ts)

    A `FilterOptions` object is a `Row`; the four reserved control keys are
    destructured away and every remaining key becomes an equality
    predicate. -/

/-- The four reserved control keys of `FilterOptions`. -/
def reservedKeys : List String := ["limit", "offset", "orderBy", "orderDirection"]

/-- The rest-destructuring `...conditions` of
    `const { limit, offset, orderBy, orderDirection, ...conditions } = filter`. -/
def filterConditions (f : Row) : Row :=
  f.filter (fun kv => !(reservedKeys.contains kv.1))

/-- `BaseSQLiteRepository.buildWhereClause`: every non-reserved key/value
    pair becomes a `key = ?` predicate with the value pushed as a bound
    parameter; predicates are joined with AND under a leading `WHERE`. -/
def buildWhereClause : Option Row → String × List Val
  | none => ("", [])
  | some filter =>
    let conditions := filterConditions filter
    let whereConditions := conditions.map (fun kv => kv.1 ++ " = ?")
    let params := conditions.map (fun kv => kv.2)
    let whereClause :=
      if whereConditions.length > 0 then
        "WHERE " ++ String.intercalate " AND " whereConditions
      else ""
    (whereClause, params)

/-- `BaseSQLiteRepository.buildOrderAndLimit`: `ORDER BY` is appended when
    `orderBy` is truthy (direction `orderDirection || 'ASC'`), `LIMIT` when
    `limit !== undefined`, and `OFFSET` — inside the `LIMIT` branch only —
    when `offset !== undefined`. -/
def buildOrderAndLimit : Option Row → String
  | none => ""
  | some filter =>
    let orderBy := getVal filter "orderBy"
    let orderDirection := getVal filter "orderDirection"
    let limit := getVal filter "limit"
    let offset := getVal filter "offset"
    let clause := ""
    let clause :=
      if orderBy.truthy then
        clause ++ " ORDER BY " ++ orderBy.display ++ " " ++
          (if orderDirection.truthy then orderDirection.display else "ASC")
      else clause
    let clause :=
      if ¬ limit.isUndefined then
        let c := clause ++ " LIMIT " ++ limit.display
        if ¬ offset.isUndefined then c ++ " OFFSET " ++ offset.display else c
      else clause
    clause

/-! ### SQL execution model

    A table is its list of rows in storage order plus the next rowid the
    driver will allocate (SQLite rowids grow monotonically; `lastID`
    reported by the driver after an INSERT is the rowid of the new row). -/

/-- SQL `=` on cell values: `NULL` (and a missing column) never compares
    equal to anything, values of different storage classes are unequal,
    like-typed values compare componentwise.  Two ISO-8601 strings of the
    same format are equal iff their timestamps are. -/
def sqlValEq : Val → Val → Bool
  | .num a, .num b => a = b
  | .str a, .str b => a = b
  | .isoText a, .isoText b => a = b
  | .bool a, .bool b => a = b
  | _, _ => false

/-- Rank of the storage class for SQL ordering (`NULL < numeric < text`);
    adequate for the homogeneous columns the repository orders by. -/
def Val.sqlRank : Val → ℕ
  | .undefined => 0
  | .null => 0
  | .bool _ => 1
  | .num _ => 1
  | .date _ => 1
  | .str _ => 2
  | .isoText _ => 3
  | .jsonText _ => 4
  | .live _ => 5

/-- SQL `ORDER BY` comparison on cell values.  ISO-8601 text of the fixed
    `toISOString` format orders lexicographically exactly as the underlying
    timestamps do, so `isoText` compares by payload. -/
def sqlValLe (a b : Val) : Bool :=
  match a, b with
  | .num x, .num y => x ≤ y
  | .str x, .str y => x ≤ y
  | .isoText x, .isoText y => x ≤ y
  | .date x, .date y => x ≤ y
  | x, y => x.sqlRank ≤ y.sqlRank

/-- SQL integer read of a bound value (for `LIMIT`/`OFFSET`). -/
def valToInt : Val → ℤ
  | .num q => q.floor
  | _ => 0

/-- A stored table: rows in storage order plus the next rowid. -/
structure Table where
  rows : List Row
  nextRowid : ℕ

/-- `INSERT` appends the row and reports the allocated rowid as `lastID`. -/
def tableInsert (t : Table) (r : Row) : Table × ℕ :=
  ({ rows := t.rows ++ [r], nextRowid := t.nextRowid + 1 }, t.nextRowid)

/-- Whether a row satisfies every `key = ?` equality predicate of the
    compiled WHERE clause. -/
def rowMatches (conds : Row) (r : Row) : Bool :=
  conds.all (fun kv => sqlValEq (getVal r kv.1) kv.2)

/-- Execution of `SELECT * FROM t <whereClause> <orderAndLimit>` as compiled
    by `buildWhereClause`/`buildOrderAndLimit` from the filter `f`
    (the query behind `findAll`): filter by the equality predicates, sort
    when `orderBy` is truthy (`DESC` exactly when the interpolated direction
    text is `DESC`), then apply `OFFSET`/`LIMIT` when `limit` is given
    (a negative limit means no limit in SQLite). -/
def findAllRowsF (f : Row) (rows : List Row) : List Row :=
    let selected := rows.filter (rowMatches (filterConditions f))
    let ob := getVal f "orderBy"
    let ordered :=
      if ob.truthy then
        let od := getVal f "orderDirection"
        let dir := if od.truthy then od.display else "ASC"
        let col := ob.display
        if dir = "DESC" then
          selected.insertionSort (fun a b => sqlValLe (getVal b col) (getVal a col) = true)
        else
          selected.insertionSort (fun a b => sqlValLe (getVal a col) (getVal b col) = true)
      else selected
    let lim := getVal f "limit"
    if lim.isUndefined then ordered
    else
      let off := getVal f "offset"
      let o : ℤ := if off.isUndefined then 0 else valToInt off
      let dropped := ordered.drop o.toNat
      if valToInt lim < 0 then dropped else dropped.take (valToInt lim).toNat

/-- The `findAll` query: a missing filter selects the whole table. -/
def findAllRows : Option Row → List Row → List Row
  | none, rows => rows
  | some f, rows => findAllRowsF f rows

/-- Execution of `BaseSQLiteRepository.findOne`: the compiled WHERE clause
    of the filter plus a literal `LIMIT 1`, collapsed by `queryOne` to the
    first row or none.  Note the source appends no ORDER BY/OFFSET here. -/
def findOneRows (f : Row) (rows : List Row) : Option Row :=
  (rows.filter (rowMatches (filterConditions f))).head?

/-- Execution of `BaseSQLiteRepository.findById`:
    `SELECT * FROM t WHERE <pk> = ?` collapsed to the first row or none. -/
def findByIdRow (pk : String) (t : Table) (idv : Val) : Option Row :=
  t.rows.find? (fun r => sqlValEq (getVal r pk) idv)

/-- Errors thrown by the generic repository. -/
inductive RepoError where
  | postUpdateFetchFailed (id : Val)

/-- `UPDATE`'s SET list applied to one row. -/
def applyCols (cols : Row) (r : Row) : Row :=
  cols.foldl (fun acc kv => objSet acc kv.1 kv.2) r

/-- `BaseSQLiteRepository.update` at row level, with `row = entityToRow
    (entity)` already computed by the subclass: keep the columns other than
    `id` whose value is defined; with no such column, return the current
    row (`findById`, possibly none, with no error); otherwise run
    `UPDATE ... SET ... WHERE pk = ?`, re-read, and throw the post-update
    fetch error when the re-read finds nothing. -/
def repoUpdate (pk : String) (t : Table) (idv : Val) (row : Row) :
    Except RepoError (Option Row) × Table :=
  let columns := row.filter (fun kv => decide (kv.1 ≠ "id") && !kv.2.isUndefined)
  if columns.isEmpty then
    (.ok (findByIdRow pk t idv), t)
  else
    let t' : Table :=
      { t with rows := t.rows.map (fun r =>
          if sqlValEq (getVal r pk) idv then applyCols columns r else r) }
    match findByIdRow pk t' idv with
    | none => (.error (.postUpdateFetchFailed idv), t')
    | some r => (.ok (some r), t')

/-- `BaseSQLiteRepository.delete`: `DELETE FROM t WHERE <pk> = ?`, returning
    whether any row was removed. -/
def repoDelete (pk : String) (t : Table) (idv : Val) : Bool × Table :=
  let remaining := t.rows.filter (fun r => !(sqlValEq (getVal r pk) idv))
  (decide (remaining.length < t.rows.length), { t with rows := remaining })

/-- `BaseSQLiteRepository.create` at row level, with `row = entityToRow
    (entity)` already computed: INSERT every column of `row` except `id`,
    then return the caller's entity object spread with `id: result.lastID`
    (the driver's rowid, a number). -/
def repoCreate (t : Table) (entityObj : Row) (row : Row) : Row × Table :=
  let cols := row.filter (fun kv => decide (kv.1 ≠ "id"))
  let (t', lastID) := tableInsert t cols
  (objSet entityObj "id" (.num (lastID : ℚ)), t')


/-! ### Claim C6 — filter compiler contract -/

/-- Specification-side reading of C6: each key other than the four reserved
    control keys yields one `column = ?` equality predicate; a reserved key
    yields none. -/
def specEqualityPredicates (f : Row) : List String :=
  f.filterMap (fun kv =>
    if reservedKeys.contains kv.1 then none else some (kv.1 ++ " = ?"))

/-- Specification-side bound parameters: the values of the non-reserved
    keys, in order. -/
def specBoundParams (f : Row) : List Val :=
  f.filterMap (fun kv =>
    if reservedKeys.contains kv.1 then none else some kv.2)

/-- Specification-side WHERE clause: the equality predicates ANDed under a
    leading `WHERE`, empty when there is no predicate. -/
def specWhereClause (f : Row) : String :=
  if specEqualityPredicates f = [] then ""
  else "WHERE " ++ String.intercalate " AND " (specEqualityPredicates f)

/-- Specification-side ORDER BY fragment: present only when `orderBy` is
    truthy, with the direction defaulting to ascending. -/
def specOrderPart (f : Row) : String :=
  if (getVal f "orderBy").truthy then
    " ORDER BY " ++ (getVal f "orderBy").display ++ " " ++
      (if (getVal f "orderDirection").truthy
       then (getVal f "orderDirection").display else "ASC")
  else ""

/-- Specification-side LIMIT/OFFSET fragment: present only when `limit` is
    given, with OFFSET only alongside it. -/
def specLimitPart (f : Row) : String :=
  if (getVal f "limit").isUndefined then ""
  else
    " LIMIT " ++ (getVal f "limit").display ++
      (if (getVal f "offset").isUndefined then ""
       else " OFFSET " ++ (getVal f "offset").display)

theorem getVal_cons_ne (k : String) (v : Val) (f : Row) (key : String)
    (h : k ≠ key) : getVal ((k, v) :: f) key = getVal f key := by
  simp [getVal, List.find?_cons, h]

theorem filter_map_eq_filterMap {α β : Type} (c : α → Bool) (g : α → β)
    (l : List α) :
    (l.filter (fun a => !(c a))).map g
      = l.filterMap (fun a => if c a then none else some (g a)) := by
  induction l with
  | nil => rfl
  | cons a l ih =>
    by_cases h : c a <;> simp [List.filter_cons, List.filterMap_cons, h, ih]

theorem buildWhereClause_eq (f : Row) :
    buildWhereClause (some f) = (specWhereClause f, specBoundParams f) := by
  have hpred : (filterConditions f).map (fun kv => kv.1 ++ " = ?")
      = specEqualityPredicates f :=
    filter_map_eq_filterMap (fun kv => reservedKeys.contains kv.1)
      (fun kv => kv.1 ++ " = ?") f
  have hparam : (filterConditions f).map (fun kv => kv.2)
      = specBoundParams f :=
    filter_map_eq_filterMap (fun kv => reservedKeys.contains kv.1)
      (fun kv => kv.2) f
  show (if ((filterConditions f).map (fun kv => kv.1 ++ " = ?")).length > 0
      then "WHERE " ++ String.intercalate " AND "
        ((filterConditions f).map (fun kv => kv.1 ++ " = ?"))
      else "", (filterConditions f).map (fun kv => kv.2))
    = (specWhereClause f, specBoundParams f)
  rw [hpred, hparam]
  simp only [specWhereClause]
  by_cases hnil : specEqualityPredicates f = []
  · simp [hnil]
  · simp [hnil, List.length_pos.mpr hnil]

theorem buildOrderAndLimit_decompose (f : Row) :
    buildOrderAndLimit (some f) = specOrderPart f ++ specLimitPart f := by
  unfold buildOrderAndLimit specOrderPart specLimitPart
  by_cases h1 : (getVal f "orderBy").truthy
  · by_cases h2 : (getVal f "limit").isUndefined
    · simp [h1, h2]
    · by_cases h3 : (getVal f "offset").isUndefined <;>
        simp [h1, h2, h3, String.append_assoc]
  · by_cases h2 : (getVal f "limit").isUndefined
    · simp [h1, h2]
    · by_cases h3 : (getVal f "offset").isUndefined <;>
        simp [h1, h2, h3, String.append_assoc]

/-- C6 (confirmed): the base filter compiler turns exactly the non-reserved
    keys into `column = ?` equality predicates ANDed together (reserved keys
    are never predicates, and each predicate carries its bound parameter);
    the order/limit compiler appends an ORDER BY fragment only when
    `orderBy` is given (direction defaulting to ASC when `orderDirection`
    is absent) and a LIMIT fragment — with OFFSET only inside it — only
    when `limit` is given; and the ORDER/LIMIT output is independent of the
    predicate keys (prepending any non-reserved key leaves it unchanged). -/
theorem c6_filter_compiler (f : Row) :
    buildWhereClause (some f) = (specWhereClause f, specBoundParams f)
    ∧ buildOrderAndLimit (some f) = specOrderPart f ++ specLimitPart f
    ∧ ((getVal f "orderBy").truthy = false → specOrderPart f = "")
    ∧ (∀ s : String, getVal f "orderBy" = .str s → s ≠ "" →
        getVal f "orderDirection" = .undefined →
        specOrderPart f = " ORDER BY " ++ s ++ " ASC")
    ∧ (getVal f "limit" = .undefined → specLimitPart f = "")
    ∧ (∀ (k : String) (v : Val), reservedKeys.contains k = false →
        buildOrderAndLimit (some ((k, v) :: f)) = buildOrderAndLimit (some f)) := by
  refine ⟨buildWhereClause_eq f, buildOrderAndLimit_decompose f, ?_, ?_, ?_, ?_⟩
  · intro h
    simp [specOrderPart, h]
  · intro s hs hne hd
    have ht : (Val.str s).truthy = true := by simp [Val.truthy, hne]
    simp only [specOrderPart, hs, hd, ht, if_true, Val.truthy,
      Bool.false_eq_true, if_false, Val.display]
    rw [if_pos (by simp [hne] : decide (s ≠ "") = true)]
    rw [String.append_assoc, String.append_assoc]
    rfl
  · intro h
    simp [specLimitPart, h, Val.isUndefined]
  · intro k v h
    have e1 : k ≠ "limit" := by intro he; subst he; simp [reservedKeys] at h
    have e2 : k ≠ "offset" := by intro he; subst he; simp [reservedKeys] at h
    have e3 : k ≠ "orderBy" := by intro he; subst he; simp [reservedKeys] at h
    have e4 : k ≠ "orderDirection" := by
      intro he; subst he; simp [reservedKeys] at h
    rw [buildOrderAndLimit_decompose, buildOrderAndLimit_decompose]
    have h1 := getVal_cons_ne k v f "limit" e1
    have h2 := getVal_cons_ne k v f "offset" e2
    have h3 := getVal_cons_ne k v f "orderBy" e3
    have h4 := getVal_cons_ne k v f "orderDirection" e4
    simp [specOrderPart, specLimitPart, h1, h2, h3, h4]

/-- Witness for C6 at the specification's own example filter (without a
    direction, exercising the ASC default): one equality predicate on
    `status` with its bound parameter, and `ORDER BY dueDate ASC LIMIT 5`. -/
theorem c6_filter_compiler_witness :
    buildWhereClause (some [("status", .str "DONE"), ("limit", .num 5),
        ("orderBy", .str "dueDate")])
      = ("WHERE status = ?", [.str "DONE"])
    ∧ buildOrderAndLimit (some [("status", .str "DONE"), ("limit", .num 5),
        ("orderBy", .str "dueDate")])
      = " ORDER BY dueDate ASC LIMIT 5" := by
  have h := c6_filter_compiler
    [("status", .str "DONE"), ("limit", .num 5), ("orderBy", .str "dueDate")]
  refine ⟨h.1.trans (by rfl), h.2.1.trans ?_⟩
  rw [h.2.2.2.1 "dueDate" rfl (by decide) rfl]
  rfl

/-! ### Row lemmas -/

theorem find?_key_filter_ne (r : Row) (k key : String) (h : k ≠ key) :
    (r.filter (fun kv => kv.1 ≠ k)).find? (fun kv => kv.1 = key)
      = r.find? (fun kv => kv.1 = key) := by
  induction r with
  | nil => rfl
  | cons kv r ih =>
    rw [List.filter_cons]
    by_cases h1 : kv.1 = k
    · rw [if_neg (by simp [h1])]
      rw [ih, List.find?_cons_of_neg _ (by simpa [h1] using h)]
    · rw [if_pos (by simp [h1])]
      by_cases h2 : kv.1 = key
      · rw [List.find?_cons_of_pos _ (by simpa using h2),
          List.find?_cons_of_pos _ (by simpa using h2)]
      · rw [List.find?_cons_of_neg _ (by simpa using h2),
          List.find?_cons_of_neg _ (by simpa using h2), ih]

theorem getVal_objSet_same (r : Row) (k : String) (v : Val) :
    getVal (objSet r k v) k = v := by
  unfold objSet getVal
  rw [List.find?_append]
  have h1 : (r.filter (fun kv => kv.1 ≠ k)).find? (fun kv => kv.1 = k)
      = none := by
    rw [List.find?_eq_none]
    intro x hx
    have := (List.mem_filter.mp hx).2
    simpa using this
  have h2 : List.find? (fun kv => kv.1 = k) [(k, v)] = some (k, v) := by
    simp [List.find?]
  rw [h1, h2]
  rfl

theorem getVal_objSet_ne (r : Row) (k : String) (v : Val) (key : String)
    (h : k ≠ key) : getVal (objSet r k v) key = getVal r key := by
  unfold objSet getVal
  rw [List.find?_append]
  have h2 : List.find? (fun kv => kv.1 = key) [(k, v)] = none := by
    simp [List.find?, h]
  rw [h2, find?_key_filter_ne r k key h]
  cases r.find? (fun kv => kv.1 = key) <;> rfl

theorem getVal_filterConditions_reserved (f : Row) (key : String)
    (h : reservedKeys.contains key = true) :
    getVal (filterConditions f) key = .undefined := by
  unfold filterConditions getVal
  have hnone : (f.filter (fun kv => !(reservedKeys.contains kv.1))).find?
      (fun kv => kv.1 = key) = none := by
    rw [List.find?_eq_none]
    intro x hx
    have h2 := (List.mem_filter.mp hx).2
    simp only [Bool.not_eq_true'] at h2
    simp only [decide_eq_true_eq]
    intro he
    rw [he, h] at h2
    exact Bool.noConfusion h2
  rw [hnone]

theorem filterConditions_objSet_reserved (f : Row) (k : String) (v : Val)
    (h : reservedKeys.contains k = true) :
    filterConditions (objSet f k v) = filterConditions f := by
  unfold filterConditions objSet
  rw [List.filter_append, List.filter_filter]
  have hkm : k ∈ reservedKeys := by simpa using h
  have h2 : List.filter (fun kv => !(reservedKeys.contains kv.1)) [(k, v)]
      = [] := by simp [List.filter_cons, List.filter_nil, hkm]
  rw [h2, List.append_nil]
  apply List.filter_congr
  intro kv _
  by_cases hc : reservedKeys.contains kv.1 = true
  · have hmem : kv.1 ∈ reservedKeys := by simpa using hc
    simp [hmem]
  · have hmem : kv.1 ∉ reservedKeys := by simpa using hc
    have hkm : k ∈ reservedKeys := by simpa using h
    have hk : kv.1 ≠ k := fun he => hmem (he ▸ hkm)
    simp [hmem, hk]

theorem filterConditions_idem (f : Row) :
    filterConditions (filterConditions f) = filterConditions f := by
  unfold filterConditions
  rw [List.filter_filter]
  apply List.filter_congr
  intro kv _
  by_cases hk : reservedKeys.contains kv.1 <;> simp [hk]

/-! ### Claim C7 — `findOne` versus `findAll` with `limit = 1`

    `findOne` compiles only the WHERE clause and appends a literal
    `LIMIT 1`; it never emits the filter's `orderBy`/`orderDirection`/
    `offset`.  `findAll` on the same filter does.  The two therefore agree
    only when the filter carries no truthy `orderBy` and no `offset`. -/

/-- C7 as claimed, at one input: the claim's equivalence between
    `findOne(filter)` and `findAll(filter with limit 1)` collapsed to a
    scalar.  With rows `(id a, v 1)`, `(id b, v 2)` and the filter
    `{orderBy: "v", orderDirection: "DESC"}`, `findOne` returns the first
    row in storage order while `findAll` returns the `v`-descending first
    row — the claim fails on filters that include `orderBy`. -/
theorem c7_claim_counterexample :
    ¬ (findOneRows [("orderBy", .str "v"), ("orderDirection", .str "DESC")]
        [[("id", .str "a"), ("v", .num 1)], [("id", .str "b"), ("v", .num 2)]]
      = (findAllRows (some (objSet [("orderBy", .str "v"),
          ("orderDirection", .str "DESC")] "limit" (.num 1)))
        [[("id", .str "a"), ("v", .num 1)],
         [("id", .str "b"), ("v", .num 2)]]).head?) := by
  intro h
  rw [show findOneRows [("orderBy", .str "v"), ("orderDirection", .str "DESC")]
        [[("id", .str "a"), ("v", .num 1)], [("id", .str "b"), ("v", .num 2)]]
      = some [("id", .str "a"), ("v", .num 1)] from rfl] at h
  rw [show (findAllRows (some (objSet [("orderBy", .str "v"),
          ("orderDirection", .str "DESC")] "limit" (.num 1)))
        [[("id", .str "a"), ("v", .num 1)],
         [("id", .str "b"), ("v", .num 2)]]).head?
      = some [("id", .str "b"), ("v", .num 2)] from rfl] at h
  simp at h

/-- C7 (corrected): `findOne(filter)` equals the head of `findAll` run on
    the filter's equality conditions alone, and it agrees with `findAll` on
    the same filter with `limit := 1` collapsed to a scalar exactly under
    the proviso that the filter carries no truthy `orderBy` and no
    `offset` — `findOne` drops the ordering and offset the claim says it
    preserves. -/
theorem c7_findOne_amended (f : Row) (rows : List Row) :
    findOneRows f rows
      = (findAllRows (some (filterConditions f)) rows).head?
    ∧ ((getVal f "orderBy").truthy = false → getVal f "offset" = .undefined →
        findOneRows f rows
          = (findAllRows (some (objSet f "limit" (.num 1))) rows).head?) := by
  constructor
  · show (rows.filter (rowMatches (filterConditions f))).head?
      = (findAllRowsF (filterConditions f) rows).head?
    dsimp only [findAllRowsF]
    rw [filterConditions_idem,
      getVal_filterConditions_reserved f "orderBy" (by decide),
      getVal_filterConditions_reserved f "limit" (by decide)]
    simp [Val.truthy, Val.isUndefined]
  · intro hob hoff
    show (rows.filter (rowMatches (filterConditions f))).head?
      = (findAllRowsF (objSet f "limit" (.num 1)) rows).head?
    dsimp only [findAllRowsF]
    rw [filterConditions_objSet_reserved f "limit" (.num 1) (by decide),
      getVal_objSet_ne f "limit" (.num 1) "orderBy" (by decide),
      getVal_objSet_ne f "limit" (.num 1) "offset" (by decide),
      getVal_objSet_same f "limit" (.num 1), hob, hoff]
    simp only [Val.isUndefined, Bool.false_eq_true, if_false, if_true,
      List.drop_zero]
    rw [show valToInt (Val.num 1) = 1 from by decide,
      if_neg (by norm_num : ¬ (1 : ℤ) < 0),
      show ((1 : ℤ)).toNat = 1 from rfl]
    generalize rows.filter (rowMatches (filterConditions f)) = l
    cases l <;> rfl

/-- Witness for the amended C7 at a filter with no `orderBy` and no
    `offset`: `findOne` agrees with `findAll` on the filter with
    `limit := 1` collapsed to a scalar. -/
theorem c7_findOne_amended_witness :
    findOneRows [("status", .str "DONE")]
        [[("status", .str "OPEN"), ("id", .str "a")],
         [("status", .str "DONE"), ("id", .str "b")]]
      = (findAllRows
          (some (objSet [("status", .str "DONE")] "limit" (.num 1)))
          [[("status", .str "OPEN"), ("id", .str "a")],
           [("status", .str "DONE"), ("id", .str "b")]]).head? :=
  (c7_findOne_amended [("status", .str "DONE")]
    [[("status", .str "OPEN"), ("id", .str "a")],
     [("status", .str "DONE"), ("id", .str "b")]]).2 rfl rfl

/-! ### Claim C9 — `update` on a missing id raises

    With at least one defined mutable column, the UPDATE statement matches
    no row, the post-update re-read finds nothing, and `update` throws its
    post-update-fetch error with every row of the table unchanged — while
    `findById` returns the not-found sentinel and `delete` returns `false`
    for the same id. -/

/-- C9 (confirmed): for an id with no stored row and at least one defined
    non-id column, `update` leaves the table unchanged and throws the
    post-update-fetch error, whereas `delete` on the same id returns
    `false` without error (`findById = none` is the hypothesis itself). -/
theorem c9_update_missing_id (pk : String) (t : Table) (idv : Val) (row : Row)
    (hmiss : findByIdRow pk t idv = none)
    (hcols : row.filter (fun kv => decide (kv.1 ≠ "id") && !kv.2.isUndefined) ≠ []) :
    repoUpdate pk t idv row = (.error (.postUpdateFetchFailed idv), t)
    ∧ repoDelete pk t idv = (false, t) := by
  have hnomatch : ∀ r ∈ t.rows, sqlValEq (getVal r pk) idv = false := by
    intro r hr
    have h := List.find?_eq_none.mp hmiss r hr
    simpa using h
  have him : ∀ r ∈ t.rows,
      (if sqlValEq (getVal r pk) idv then applyCols
        (row.filter (fun kv => decide (kv.1 ≠ "id") && !kv.2.isUndefined)) r
      else r) = r := by
    intro r hr
    simp [hnomatch r hr]
  have hmap : t.rows.map (fun r =>
      if sqlValEq (getVal r pk) idv then applyCols
        (row.filter (fun kv => decide (kv.1 ≠ "id") && !kv.2.isUndefined)) r
      else r) = t.rows := by
    rw [List.map_congr_left him]
    exact List.map_id' t.rows
  have hfilt : t.rows.filter (fun r => !(sqlValEq (getVal r pk) idv))
      = t.rows := by
    rw [List.filter_eq_self]
    intro r hr
    simp [hnomatch r hr]
  have ht : ({ t with rows := t.rows.map (fun r =>
      if sqlValEq (getVal r pk) idv then applyCols
        (row.filter (fun kv => decide (kv.1 ≠ "id") && !kv.2.isUndefined)) r
      else r) } : Table) = t := by
    cases t
    simp only [hmap]
  refine ⟨?_, ?_⟩
  · simp only [repoUpdate]
    rw [if_neg (by simpa [List.isEmpty_iff] using hcols)]
    rw [ht, hmiss]
  · simp only [repoDelete]
    rw [hfilt]
    cases t
    simp

/-- Witness for C9: a one-row table, a missing id `zzz`, and a single
    defined column to update. -/
theorem c9_update_missing_id_witness :
    repoUpdate "id" ⟨[[("id", .str "a")]], 2⟩ (.str "zzz")
        [("title", .str "New")]
      = (.error (.postUpdateFetchFailed (.str "zzz")), ⟨[[("id", .str "a")]], 2⟩)
    ∧ repoDelete "id" ⟨[[("id", .str "a")]], 2⟩ (.str "zzz")
      = (false, ⟨[[("id", .str "a")]], 2⟩) :=
  c9_update_missing_id "id" ⟨[[("id", .str "a")]], 2⟩ (.str "zzz")
    [("title", .str "New")] rfl (by simp [Val.isUndefined])

/-! ### Migration engine (`MigrationManager`,
    src/services/database/migration-manager.ts)

    The engine's persistent state is the `migrations` ledger table; each
    discovered unit has an id (filename prefix), a filename and `up`/`down`
    operations whose schema effects are opaque to the engine — the model
    records which filenames were run.  `upOk` says whether the unit's `up()`
    resolves; `down()` failures are not exercised by the claims under study
    and downs always resolve in the model.  `loadMigrations` is modelled by
    passing the loaded (localeCompare-sorted) unit list `ms` explicitly;
    `initMigrationTable` is a no-op on the modelled ledger. -/

/-- A loaded migration unit. -/
structure Migration where
  id : String
  filename : String
  upOk : Bool
deriving DecidableEq

/-- A row of the `migrations` ledger (`applied_at` is filled by a column
    default and never read by the engine, so it is omitted). -/
structure MigRecord where
  id : String
  filename : String
deriving DecidableEq

/-- The persistent migration state: the ledger rows in insertion order. -/
structure MigDB where
  ledger : List MigRecord
deriving DecidableEq

/-- Byte-wise string comparison, structurally recursive (SQLite's default
    BINARY collation for `ORDER BY id`). -/
def charsLe : List Char → List Char → Bool
  | [], _ => true
  | _ :: _, [] => false
  | a :: as, b :: bs =>
    if a.toNat < b.toNat then true
    else if b.toNat < a.toNat then false
    else charsLe as bs

/-- String comparison for `ORDER BY id` on the ledger. -/
def strLe (a b : String) : Bool := charsLe a.data b.data

/-- `getAppliedMigrations`: `SELECT * FROM migrations ORDER BY id`. -/
def getAppliedMigrations (db : MigDB) : List MigRecord :=
  db.ledger.insertionSort (fun a b => strLe a.id b.id = true)

/-- `getPendingMigrations`: the loaded units whose id is not in the ledger,
    in loaded order. -/
def getPendingMigrations (ms : List Migration) (db : MigDB) : List Migration :=
  let appliedIds := (getAppliedMigrations db).map (fun r => r.id)
  ms.filter (fun m => !(appliedIds.contains m.id))

/-- `recordMigration`: `INSERT INTO migrations (id, filename) VALUES (?, ?)`. -/
def recordMigration (m : Migration) (db : MigDB) : MigDB :=
  ⟨db.ledger ++ [⟨m.id, m.filename⟩]⟩

/-- `removeMigrationRecord`: `DELETE FROM migrations WHERE id = ?`. -/
def removeMigrationRecord (id : String) (db : MigDB) : MigDB :=
  ⟨db.ledger.filter (fun r => r.id ≠ id)⟩

/-- The `migrateUp` loop over the pending units: apply each unit's `up` in
    order, record it in the ledger on success, and stop at the first
    failing unit, reporting its filename in the error slot.  Result:
    (state, filenames whose `up` ran successfully, error). -/
def runUps : List Migration → MigDB → MigDB × List String × Option String
  | [], db => (db, [], none)
  | m :: rest, db =>
    if m.upOk then
      ((runUps rest (recordMigration m db)).1,
       m.filename :: (runUps rest (recordMigration m db)).2.1,
       (runUps rest (recordMigration m db)).2.2)
    else (db, [], some m.filename)

/-- `migrateUp`: compute pending = discovered minus applied (by id) and run
    their `up`s in order (an empty pending list is a no-op). -/
def migrateUp (ms : List Migration) (db : MigDB) :
    MigDB × List String × Option String :=
  runUps (getPendingMigrations ms db) db

/-- `status()`: the applied records and the pending units, read-only. -/
def statusM (ms : List Migration) (db : MigDB) :
    List MigRecord × List Migration :=
  (getAppliedMigrations db, getPendingMigrations ms db)

/-- Observable outcome of `migrateDown`: normal completion, the logged
    "nothing to roll back" info no-op, or the logged unknown-target error
    return. -/
inductive DownOutcome where
  | completed
  | nothingToRollback
  | unknownTarget
deriving DecidableEq

/-- Which applied records `migrateDown(targetId?)` selects for rollback:
    with a target, every applied record after the target's index, newest
    first (`none` when the target id matches no applied record); without a
    target, the single most recently applied record. -/
def rollbackSelection (target : Option String) (applied : List MigRecord) :
    Option (List MigRecord) :=
  match target with
  | some t =>
    match applied.findIdx? (fun r => r.id = t) with
    | none => none
    | some i => some ((applied.drop (i + 1)).reverse)
  | none => some applied.getLast?.toList

/-- The rollback loop: a record whose id matches no loaded unit is skipped
    with a warning (its `down` is not invoked, its ledger row is kept);
    otherwise the unit's `down` runs and its ledger row is deleted.
    Result: (state, filenames whose `down` ran). -/
def rollbackLoop (ms : List Migration) :
    List MigRecord → MigDB → MigDB × List String
  | [], db => (db, [])
  | r :: rest, db =>
    match ms.find? (fun m => m.id = r.id) with
    | none => rollbackLoop ms rest db
    | some m =>
      ((rollbackLoop ms rest (removeMigrationRecord m.id db)).1,
       m.filename :: (rollbackLoop ms rest (removeMigrationRecord m.id db)).2)

/-- `migrateDown(targetId?)`: no-op when nothing is applied; with an
    unknown target, log an error and return without any rollback;
    otherwise roll back the selected records newest-first. -/
def migrateDown (ms : List Migration) (target : Option String) (db : MigDB) :
    MigDB × List String × DownOutcome :=
  let applied := getAppliedMigrations db
  if applied.isEmpty then (db, [], .nothingToRollback)
  else
    match rollbackSelection target applied with
    | none => (db, [], .unknownTarget)
    | some toRollback =>
      if toRollback.isEmpty then (db, [], .nothingToRollback)
      else
        ((rollbackLoop ms toRollback db).1,
         (rollbackLoop ms toRollback db).2, .completed)

theorem getAppliedMigrations_perm (db : MigDB) :
    (getAppliedMigrations db).Perm db.ledger :=
  List.perm_insertionSort _ _

/-! ### Claim C5 — `migrateDown` with an unknown target -/

/-- C5 as claimed, at one input: with an empty ledger, any target matches
    no applied record, yet `migrateDown` returns the "nothing to roll back"
    no-op (an info log), not the unknown-target error abort the claim
    requires. -/
theorem c5_claim_counterexample :
    (∀ r ∈ (⟨[]⟩ : MigDB).ledger, r.id ≠ "999")
    ∧ migrateDown [] (some "999") ⟨[]⟩ = (⟨[]⟩, [], .nothingToRollback)
    ∧ DownOutcome.nothingToRollback ≠ DownOutcome.unknownTarget := by
  refine ⟨?_, rfl, by decide⟩
  intro r hr
  simp at hr

/-- C5 (corrected): when the target id matches no applied record and the
    ledger is non-empty, `migrateDown` stops with the unknown-target error
    (logged; the returned promise still resolves), invokes no `down` and
    leaves the ledger unchanged; with an empty ledger it instead returns as
    the "nothing to roll back" no-op, likewise rolling nothing back. -/
theorem c5_migrateDown_unknown_target (ms : List Migration) (db : MigDB)
    (t : String) (hunknown : ∀ r ∈ db.ledger, r.id ≠ t) :
    (db.ledger ≠ [] →
      migrateDown ms (some t) db = (db, [], .unknownTarget))
    ∧ (db.ledger = [] →
      migrateDown ms (some t) db = (db, [], .nothingToRollback)) := by
  constructor
  · intro hne
    have hidx : (getAppliedMigrations db).findIdx? (fun r => r.id = t)
        = none := by
      rw [List.findIdx?_eq_none_iff]
      intro r hr
      have hmem : r ∈ db.ledger := (getAppliedMigrations_perm db).mem_iff.mp hr
      simpa using hunknown r hmem
    have hnemp : (getAppliedMigrations db).isEmpty = false := by
      rw [List.isEmpty_eq_false_iff_exists_mem]
      obtain ⟨r, hr⟩ := List.exists_mem_of_ne_nil db.ledger hne
      exact ⟨r, (getAppliedMigrations_perm db).mem_iff.mpr hr⟩
    simp only [migrateDown, hnemp, Bool.false_eq_true, if_false,
      rollbackSelection, hidx]
  · intro hnil
    have : getAppliedMigrations db = [] := by
      have := (getAppliedMigrations_perm db).length_eq
      rw [hnil] at this
      exact List.eq_nil_of_length_eq_zero this
    simp [migrateDown, this]

/-- Witness for the amended C5: a one-record ledger and the unknown target
    `999` produce the error return with no rollback and the ledger kept. -/
theorem c5_migrateDown_unknown_target_witness :
    migrateDown [] (some "999") ⟨[⟨"001", "001-initial-schema.ts"⟩]⟩
      = (⟨[⟨"001", "001-initial-schema.ts"⟩]⟩, [], .unknownTarget) :=
  (c5_migrateDown_unknown_target [] ⟨[⟨"001", "001-initial-schema.ts"⟩]⟩
    "999" (by intro r hr; simp at hr; simp [hr])).1 (by simp)

/-! ### Claim C4 — `migrateUp` idempotence -/

theorem runUps_ok (l : List Migration) (db : MigDB)
    (h : (runUps l db).2.2 = none) :
    (runUps l db).1.ledger
      = db.ledger ++ l.map (fun m => (⟨m.id, m.filename⟩ : MigRecord))
    ∧ (runUps l db).2.1 = l.map (fun m => m.filename) := by
  induction l generalizing db with
  | nil => simp [runUps]
  | cons m rest ih =>
    by_cases hup : m.upOk
    · have h' : (runUps rest (recordMigration m db)).2.2 = none := by
        simpa [runUps, hup] using h
      have hih := ih (recordMigration m db) h'
      simp only [recordMigration] at hih
      simp [runUps, hup, hih.1, hih.2, recordMigration, List.append_assoc]
    · exfalso
      simp [runUps, hup] at h

/-- C4 (confirmed): after a successful `migrateUp`, every discovered unit's
    id is in the ledger, so a second `migrateUp` computes an empty pending
    list and performs zero work — it applies no unit and writes no ledger
    entry — while `status` reports the applied count as the previous count
    plus the number of units the first call applied, and no pending
    unit. -/
theorem c4_migrateUp_idempotent (ms : List Migration) (db : MigDB)
    (h : (migrateUp ms db).2.2 = none) :
    migrateUp ms ((migrateUp ms db).1) = ((migrateUp ms db).1, [], none)
    ∧ getPendingMigrations ms ((migrateUp ms db).1) = []
    ∧ (statusM ms ((migrateUp ms db).1)).1.length
        = db.ledger.length + (migrateUp ms db).2.1.length
    ∧ statusM ms ((migrateUp ms db).1) = statusM ms ((migrateUp ms db).1) := by
  have hled := runUps_ok (getPendingMigrations ms db) db h
  have hled1 : (migrateUp ms db).1.ledger
      = db.ledger ++ (getPendingMigrations ms db).map
        (fun m => (⟨m.id, m.filename⟩ : MigRecord)) := hled.1
  have hled2 : (migrateUp ms db).2.1
      = (getPendingMigrations ms db).map (fun m => m.filename) := hled.2
  have hpending : getPendingMigrations ms ((migrateUp ms db).1) = [] := by
    unfold getPendingMigrations
    rw [List.filter_eq_nil_iff]
    intro m hm
    simp only [Bool.not_eq_true', Bool.not_eq_false]
    have hperm := (getAppliedMigrations_perm ((migrateUp ms db).1)).map
      (fun r => r.id)
    have hmem : m.id ∈ ((migrateUp ms db).1.ledger.map (fun r => r.id)) := by
      rw [hled1]
      rw [List.map_append, List.mem_append]
      by_cases hap : m.id ∈ ((getAppliedMigrations db).map (fun r => r.id))
      · left
        have hperm0 := (getAppliedMigrations_perm db).map (fun r => r.id)
        exact hperm0.mem_iff.mp hap
      · right
        have hmp : m ∈ getPendingMigrations ms db := by
          unfold getPendingMigrations
          rw [List.mem_filter]
          refine ⟨hm, ?_⟩
          simpa using hap
        rw [List.map_map]
        exact List.mem_map.mpr ⟨m, hmp, rfl⟩
    have := hperm.mem_iff.mpr hmem
    simpa using this
  refine ⟨?_, hpending, ?_, rfl⟩
  · rw [show migrateUp ms ((migrateUp ms db).1)
        = runUps (getPendingMigrations ms ((migrateUp ms db).1))
          ((migrateUp ms db).1) from rfl, hpending]
    rfl
  · have h1 : (statusM ms ((migrateUp ms db).1)).1.length
        = (migrateUp ms db).1.ledger.length :=
      (getAppliedMigrations_perm ((migrateUp ms db).1)).length_eq
    rw [h1, hled1, List.length_append, hled2, List.length_map,
      List.length_map]

/-- Witness for C4: two fresh units applied to an empty ledger; the second
    `migrateUp` is a no-op and `status` reports two applied units and no
    pending unit. -/
theorem c4_migrateUp_idempotent_witness :
    migrateUp [⟨"001", "001-initial-schema.ts", true⟩,
        ⟨"002", "002-memory-schema.ts", true⟩]
      ((migrateUp [⟨"001", "001-initial-schema.ts", true⟩,
        ⟨"002", "002-memory-schema.ts", true⟩] ⟨[]⟩).1)
      = ((migrateUp [⟨"001", "001-initial-schema.ts", true⟩,
        ⟨"002", "002-memory-schema.ts", true⟩] ⟨[]⟩).1, [], none)
    ∧ (statusM [⟨"001", "001-initial-schema.ts", true⟩,
        ⟨"002", "002-memory-schema.ts", true⟩]
      ((migrateUp [⟨"001", "001-initial-schema.ts", true⟩,
        ⟨"002", "002-memory-schema.ts", true⟩] ⟨[]⟩).1)).1.length
      = 0 + (migrateUp [⟨"001", "001-initial-schema.ts", true⟩,
        ⟨"002", "002-memory-schema.ts", true⟩] ⟨[]⟩).2.1.length :=
  ⟨(c4_migrateUp_idempotent [⟨"001", "001-initial-schema.ts", true⟩,
      ⟨"002", "002-memory-schema.ts", true⟩] ⟨[]⟩ rfl).1,
   (c4_migrateUp_idempotent [⟨"001", "001-initial-schema.ts", true⟩,
      ⟨"002", "002-memory-schema.ts", true⟩] ⟨[]⟩ rfl).2.2.1⟩

/-! ### Claim C10 — rollback skips records with no matching unit -/

/-- The records `migrateDown` actually iterates over (empty on the early
    no-op / unknown-target returns). -/
def selectedRollback (target : Option String) (db : MigDB) : List MigRecord :=
  let applied := getAppliedMigrations db
  if applied.isEmpty then []
  else
    match rollbackSelection target applied with
    | none => []
    | some l => l

theorem rollbackLoop_downs (ms : List Migration) (recs : List MigRecord)
    (db : MigDB) :
    (rollbackLoop ms recs db).2
      = recs.filterMap (fun r =>
          (ms.find? (fun m => m.id = r.id)).map (fun m => m.filename)) := by
  induction recs generalizing db with
  | nil => rfl
  | cons r rest ih =>
    cases hf : ms.find? (fun m => m.id = r.id) with
    | none => simp [rollbackLoop, hf, ih, List.filterMap_cons]
    | some m => simp [rollbackLoop, hf, ih, List.filterMap_cons]

theorem rollbackLoop_keeps (ms : List Migration) (recs : List MigRecord)
    (db : MigDB) (r : MigRecord) (hr : r ∈ db.ledger)
    (hnone : r.id ∉ ms.map (fun m => m.id)) :
    r ∈ (rollbackLoop ms recs db).1.ledger := by
  induction recs generalizing db with
  | nil => exact hr
  | cons rec rest ih =>
    cases hf : ms.find? (fun m => m.id = rec.id) with
    | none =>
      simp only [rollbackLoop, hf]
      exact ih db hr
    | some m =>
      simp only [rollbackLoop, hf]
      apply ih
      have hm := List.find?_some hf
      have hmem := List.mem_of_find?_eq_some hf
      have hne : r.id ≠ m.id := by
        intro he
        exact hnone (he ▸ List.mem_map.mpr ⟨m, hmem, rfl⟩)
      unfold removeMigrationRecord
      rw [List.mem_filter]
      exact ⟨hr, by simpa using hne⟩

/-- C10 (confirmed): during `migrateDown`, an applied ledger record whose
    id matches no discovered unit survives in the ledger (its row is not
    deleted), and the `down` log is exactly the filenames of the units
    found for the selected records in order — records with no matching
    unit contribute nothing, and the loop still processes the remaining
    records. -/
theorem c10_migrateDown_skips_missing (ms : List Migration)
    (target : Option String) (db : MigDB) :
    (∀ r ∈ db.ledger, r.id ∉ ms.map (fun m => m.id) →
      r ∈ (migrateDown ms target db).1.ledger)
    ∧ (migrateDown ms target db).2.1
      = (selectedRollback target db).filterMap (fun r =>
          (ms.find? (fun m => m.id = r.id)).map (fun m => m.filename)) := by
  unfold migrateDown selectedRollback
  by_cases hemp : (getAppliedMigrations db).isEmpty
  · simp only [hemp, if_true]
    exact ⟨fun r hr _ => hr, rfl⟩
  · simp only [hemp, Bool.false_eq_true, if_false]
    cases hsel : rollbackSelection target (getAppliedMigrations db) with
    | none => exact ⟨fun r hr _ => hr, rfl⟩
    | some l =>
      by_cases hl : l.isEmpty
      · have : l = [] := by simpa [List.isEmpty_iff] using hl
        subst this
        simp only [List.isEmpty_nil, if_true]
        exact ⟨fun r hr _ => hr, rfl⟩
      · simp only [hl, Bool.false_eq_true, if_false]
        exact ⟨fun r hr hn => rollbackLoop_keeps ms l db r hr hn,
          rollbackLoop_downs ms l db⟩

/-- Witness for C10: the ledger holds `000`, `001`, `002`; units `000` and
    `002` are discoverable but `001` is missing; rolling back to `000`
    selects `002` then `001` — `002`'s down runs, `001` is skipped and its
    ledger row is kept. -/
theorem c10_migrateDown_skips_missing_witness :
    (⟨"001", "001-missing.ts"⟩ : MigRecord) ∈
      (migrateDown
        [⟨"000", "000-base.ts", true⟩, ⟨"002", "002-top.ts", true⟩]
        (some "000")
        ⟨[⟨"000", "000-base.ts"⟩, ⟨"001", "001-missing.ts"⟩,
          ⟨"002", "002-top.ts"⟩]⟩).1.ledger
    ∧ (migrateDown
        [⟨"000", "000-base.ts", true⟩, ⟨"002", "002-top.ts", true⟩]
        (some "000")
        ⟨[⟨"000", "000-base.ts"⟩, ⟨"001", "001-missing.ts"⟩,
          ⟨"002", "002-top.ts"⟩]⟩).2.1
      = (selectedRollback (some "000")
          ⟨[⟨"000", "000-base.ts"⟩, ⟨"001", "001-missing.ts"⟩,
            ⟨"002", "002-top.ts"⟩]⟩).filterMap (fun r =>
          (([⟨"000", "000-base.ts", true⟩,
             ⟨"002", "002-top.ts", true⟩] : List Migration).find?
            (fun m => m.id = r.id)).map (fun m => m.filename)) :=
  ⟨(c10_migrateDown_skips_missing
      [⟨"000", "000-base.ts", true⟩, ⟨"002", "002-top.ts", true⟩]
      (some "000")
      ⟨[⟨"000", "000-base.ts"⟩, ⟨"001", "001-missing.ts"⟩,
        ⟨"002", "002-top.ts"⟩]⟩).1
    ⟨"001", "001-missing.ts"⟩ (by simp) (by decide),
   (c10_migrateDown_skips_missing
      [⟨"000", "000-base.ts", true⟩, ⟨"002", "002-top.ts", true⟩]
      (some "000")
      ⟨[⟨"000", "000-base.ts"⟩, ⟨"001", "001-missing.ts"⟩,
        ⟨"002", "002-top.ts"⟩]⟩).2⟩

/-! ### TaskEnt service (`TaskServiceImpl`, src/services/task/task-service.ts)

    The service is modelled at entity level over a store of tasks (the
    `tasks` table seen through `TaskRepository.rowToEntity`).  A
    `Partial<TaskEnt>` is a record of optional fields (a present field is
    `some`).  `TaskRepository.entityToRow` on a partial always writes the
    `dueDate`, `metadata`, `createdAt` and `updatedAt` columns (the first
    two as NULL when absent, `createdAt` defaulting to the current time,
    `updatedAt` always the current time), so the repository-level update
    rewrites those columns even when the caller did not supply them; the
    other columns are written only when supplied. -/

inductive TaskType where
  | DEVELOPMENT | REVIEW | TESTING | DOCUMENTATION | PLANNING
  | MAINTENANCE | SUPPORT
deriving DecidableEq

inductive TaskStatus where
  | CREATED | PLANNED | IN_PROGRESS | BLOCKED | REVIEW | COMPLETED | CANCELLED
deriving DecidableEq

inductive TaskPriority where
  | LOW | MEDIUM | HIGH | CRITICAL
deriving DecidableEq

/-- A task entity (`TaskEnt`, src/core/task/types.ts); dates are epoch
    milliseconds; `id` is optional only to cover creation inputs
    (`Omit<TaskEnt, 'id'>`). -/
structure TaskEnt where
  id : Option String
  title : String
  description : String
  type : TaskType
  status : TaskStatus
  priority : TaskPriority
  assignee : Option String
  project : Option String
  dueDate : Option ℤ
  createdAt : ℤ
  updatedAt : ℤ
  metadata : List (String × Json)

/-- A `Partial<TaskEnt>`: a present field is `some`. -/
structure TaskPartial where
  title : Option String := none
  description : Option String := none
  type : Option TaskType := none
  status : Option TaskStatus := none
  priority : Option TaskPriority := none
  assignee : Option String := none
  project : Option String := none
  dueDate : Option ℤ := none
  createdAt : Option ℤ := none
  updatedAt : Option ℤ := none
  metadata : Option (List (String × Json)) := none

/-- The object spread `{...existingTask, ...updates}`: a field present in
    the updates wins, everything else comes from the existing task. -/
def mergeTask (t : TaskEnt) (p : TaskPartial) : TaskEnt where
  id := t.id
  title := p.title.getD t.title
  description := p.description.getD t.description
  type := p.type.getD t.type
  status := p.status.getD t.status
  priority := p.priority.getD t.priority
  assignee := (p.assignee.map some).getD t.assignee
  project := (p.project.map some).getD t.project
  dueDate := (p.dueDate.map some).getD t.dueDate
  createdAt := p.createdAt.getD t.createdAt
  updatedAt := p.updatedAt.getD t.updatedAt
  metadata := p.metadata.getD t.metadata

/-- Errors thrown by the task service (the constructors carry the data the
    source interpolates into its Japanese message strings). -/
inductive TaskError where
  | notFound (id : String)
  | validationFailed (errors : List String)
  | invalidTransition (cur next : TaskStatus)
deriving DecidableEq

/-- `TaskServiceImpl.validateTask` on a merged (full) task.  The enum-typed
    `type`/`status`/`priority` fields of a merged task are always present
    and truthy, so their required-field checks cannot fire; the `!task.id`
    guard sees an empty or missing id, and the title/due-date checks use
    JavaScript truthiness (an empty title is skipped by the length
    check). -/
def validateTaskErrors (now : ℤ) (t : TaskEnt) : List String :=
  (if t.id.getD "" = "" then
    (if t.title = "" then ["タイトルは必須です"] else [])
  else [])
  ++ (if t.title ≠ "" ∧ (t.title.length < 3 ∨ t.title.length > 100) then
      ["タイトルは3〜100文字である必要があります"] else [])
  ++ (match t.dueDate with
      | some d => if d < now then ["期限は未来の日付である必要があります"] else []
      | none => [])

/-- `TaskRepository.update(id, partial)` seen at entity level: the columns
    `entityToRow(partial)` defines are written and the row re-read.
    `dueDate` and `metadata` are always written (NULL when absent, and a
    NULL `metadata` reads back as the `{}` default), `createdAt` is written
    as the caller's value or the current time, `updatedAt` is always
    written as the current time. -/
def repoUpdateTask (now : ℤ) (t : TaskEnt) (p : TaskPartial) : TaskEnt where
  id := t.id
  title := p.title.getD t.title
  description := p.description.getD t.description
  type := p.type.getD t.type
  status := p.status.getD t.status
  priority := p.priority.getD t.priority
  assignee := (p.assignee.map some).getD t.assignee
  project := (p.project.map some).getD t.project
  dueDate := p.dueDate
  createdAt := p.createdAt.getD now
  updatedAt := now
  metadata := p.metadata.getD []

/-- The task store (the `tasks` table at entity level) and `findById`. -/
def findTask (store : List TaskEnt) (id : String) : Option TaskEnt :=
  store.find? (fun t => t.id = some id)

/-- `TaskServiceImpl.updateTask`: read, validate the merged task, update
    with `updatedAt` forced to the current time, and return the re-read
    entity; validation or a missing id throws and writes nothing. -/
def updateTask (now : ℤ) (store : List TaskEnt) (id : String) (p : TaskPartial) :
    Except TaskError TaskEnt × List TaskEnt :=
  match findTask store id with
  | none => (.error (.notFound id), store)
  | some existing =>
    if validateTaskErrors now (mergeTask existing p) = [] then
      ((.ok (repoUpdateTask now existing { p with updatedAt := some now })),
       store.map (fun t =>
         if t.id = some id
         then repoUpdateTask now existing { p with updatedAt := some now }
         else t))
    else (.error (.validationFailed
      (validateTaskErrors now (mergeTask existing p))), store)

/-- The status-transition table of `validateStatusTransition`. -/
def validTransitions : TaskStatus → List TaskStatus
  | .CREATED => [.PLANNED, .IN_PROGRESS, .CANCELLED]
  | .PLANNED => [.IN_PROGRESS, .BLOCKED, .CANCELLED]
  | .IN_PROGRESS => [.BLOCKED, .REVIEW, .COMPLETED, .CANCELLED]
  | .BLOCKED => [.IN_PROGRESS, .CANCELLED]
  | .REVIEW => [.IN_PROGRESS, .COMPLETED, .CANCELLED]
  | .COMPLETED => [.IN_PROGRESS, .CANCELLED]
  | .CANCELLED => [.CREATED, .PLANNED]

/-- `TaskServiceImpl.validateStatusTransition`: a self-transition is always
    allowed, otherwise the pair must be in the table or the invalid-
    transition error is thrown. -/
def validateStatusTransition (cur next : TaskStatus) :
    Except TaskError Bool :=
  if cur = next then .ok true
  else if next ∈ validTransitions cur then .ok true
  else .error (.invalidTransition cur next)

/-- `TaskServiceImpl.updateStatus`: read the task, validate the transition
    (throwing before any write), then update the status field. -/
def updateStatus (now : ℤ) (store : List TaskEnt) (taskId : String)
    (st : TaskStatus) : Except TaskError TaskEnt × List TaskEnt :=
  match findTask store taskId with
  | none => (.error (.notFound taskId), store)
  | some task =>
    match validateStatusTransition task.status st with
    | .error e => (.error e, store)
    | .ok _ => updateTask now store taskId { status := some st }

/-- The claim's transition relation: self-transition or a table entry. -/
def legalTransition (cur next : TaskStatus) : Prop :=
  cur = next ∨ next ∈ validTransitions cur

instance (cur next : TaskStatus) : Decidable (legalTransition cur next) := by
  unfold legalTransition
  infer_instance

theorem validateStatusTransition_cases (cur next : TaskStatus) :
    (legalTransition cur next
      ∧ validateStatusTransition cur next = .ok true)
    ∨ (¬ legalTransition cur next
      ∧ validateStatusTransition cur next
          = .error (.invalidTransition cur next)) := by
  unfold validateStatusTransition legalTransition
  by_cases h1 : cur = next
  · exact .inl ⟨.inl h1, by simp [h1]⟩
  · by_cases h2 : next ∈ validTransitions cur
    · exact .inl ⟨.inr h2, by simp [h1, h2]⟩
    · refine .inr ⟨?_, by simp [h1, h2]⟩
      rintro (h | h)
      · exact h1 h
      · exact h2 h

/-! ### Claim C3 — status-transition acceptance -/

/-- C3 as claimed, at one input: the task's due date (100) has passed
    (`now` = 200), the transition CREATED→PLANNED is in the table, yet
    `updateStatus` fails — `updateTask` re-validates the merged task and
    throws a validation error, so a legal transition does not suffice for
    success. -/
theorem c3_claim_counterexample :
    legalTransition .CREATED .PLANNED
    ∧ (updateStatus 200
        [{ id := some "t1", title := "Fix login bug", description := "",
           type := .DEVELOPMENT, status := .CREATED, priority := .HIGH,
           assignee := none, project := none, dueDate := some 100,
           createdAt := 50, updatedAt := 50, metadata := [] }]
        "t1" .PLANNED).1
      = .error (.validationFailed ["期限は未来の日付である必要があります"]) :=
  ⟨by decide, rfl⟩

/-- C3 (corrected): for a stored task, `updateStatus(taskId, s)` succeeds
    exactly when the transition is legal (self-transition or a table entry)
    and the task with the new status passes the service's task validation
    at the current time (title of 3–100 characters when non-empty, due
    date not in the past); an illegal transition fails with the
    invalid-transition error before any write, leaving the store
    unchanged. -/
theorem c3_updateStatus_amended (now : ℤ) (store : List TaskEnt)
    (id : String) (st : TaskStatus) (task : TaskEnt)
    (hfind : findTask store id = some task) :
    ((∃ u, (updateStatus now store id st).1 = .ok u)
      ↔ (legalTransition task.status st
        ∧ validateTaskErrors now (mergeTask task { status := some st }) = []))
    ∧ (¬ legalTransition task.status st →
        updateStatus now store id st
          = (.error (.invalidTransition task.status st), store)) := by
  rcases validateStatusTransition_cases task.status st with
    ⟨hleg, hv⟩ | ⟨hleg, hv⟩
  · constructor
    · unfold updateStatus
      rw [hfind]
      dsimp only
      rw [hv]
      dsimp only
      unfold updateTask
      rw [hfind]
      dsimp only
      by_cases herr :
          validateTaskErrors now (mergeTask task { status := some st }) = []
      · simp only [herr, if_true]
        constructor
        · intro _
          exact ⟨hleg, trivial⟩
        · intro _
          exact ⟨_, rfl⟩
      · simp only [herr, if_false]
        constructor
        · intro ⟨u, hu⟩
          exact absurd hu (by simp)
        · intro ⟨_, h2⟩
          exact h2.elim
    · intro hcon
      exact absurd hleg hcon
  · constructor
    · constructor
      · intro ⟨u, hu⟩
        unfold updateStatus at hu
        rw [hfind] at hu
        dsimp only at hu
        rw [hv] at hu
        dsimp only at hu
        exact absurd hu (by simp)
      · intro ⟨h1, _⟩
        exact absurd h1 hleg
    · intro _
      unfold updateStatus
      rw [hfind]
      dsimp only
      rw [hv]

/-- Witness for the amended C3: a valid task with no due date accepts
    CREATED→PLANNED (spec example) and rejects CREATED→REVIEW with the
    invalid-transition error, leaving the store unchanged. -/
theorem c3_updateStatus_amended_witness :
    (∃ u, (updateStatus 200
        [{ id := some "t1", title := "Fix login bug", description := "",
           type := .DEVELOPMENT, status := .CREATED, priority := .HIGH,
           assignee := none, project := none, dueDate := none,
           createdAt := 50, updatedAt := 50, metadata := [] }]
        "t1" .PLANNED).1 = .ok u)
    ∧ updateStatus 200
        [{ id := some "t1", title := "Fix login bug", description := "",
           type := .DEVELOPMENT, status := .CREATED, priority := .HIGH,
           assignee := none, project := none, dueDate := none,
           createdAt := 50, updatedAt := 50, metadata := [] }]
        "t1" .REVIEW
      = (.error (.invalidTransition .CREATED .REVIEW),
        [{ id := some "t1", title := "Fix login bug", description := "",
           type := .DEVELOPMENT, status := .CREATED, priority := .HIGH,
           assignee := none, project := none, dueDate := none,
           createdAt := 50, updatedAt := 50, metadata := [] }]) :=
  ⟨(c3_updateStatus_amended 200
      [{ id := some "t1", title := "Fix login bug", description := "",
         type := .DEVELOPMENT, status := .CREATED, priority := .HIGH,
         assignee := none, project := none, dueDate := none,
         createdAt := 50, updatedAt := 50, metadata := [] }]
      "t1" .PLANNED _ rfl).1.mpr ⟨by decide, rfl⟩,
   (c3_updateStatus_amended 200
      [{ id := some "t1", title := "Fix login bug", description := "",
         type := .DEVELOPMENT, status := .CREATED, priority := .HIGH,
         assignee := none, project := none, dueDate := none,
         createdAt := 50, updatedAt := 50, metadata := [] }]
      "t1" .REVIEW _ rfl).2 (by decide)⟩

/-! ### Memory entities and `findSimilar`
    (`MemoryRepository`, src/services/repositories/memory-repository.ts)

    JavaScript string utilities are reimplemented structurally so concrete
    instances reduce inside the kernel: `jsToLower` is
    `String.toLowerCase` (a per-character map), `splitRun` is
    `String.split` at every separator character — after discarding empty
    tokens this coincides with `split(/\W+/)`, which splits at separator
    runs — and `jsSetSize` is `new Set(l).size`. -/

inductive MemoryType where
  | CHAT | TASK | CODE | DECISION | INSIGHT | CONCEPT | EVENT
deriving DecidableEq

inductive RelationType where
  | SIMILAR_TO | PART_OF | DEPENDS_ON | LEADS_TO | CONTRADICTS | SUPPORTS
deriving DecidableEq

/-- A typed edge to another memory (`MemoryRelationship`). -/
structure MemoryRelationship where
  targetId : String
  type : RelationType
  strength : ℚ
  metadata : List (String × Json)

/-- A memory entity (`Memory`, src/core/memory/types.ts); dates are epoch
    milliseconds, numbers are exact rationals. -/
structure Memory where
  id : Option String
  type : MemoryType
  content : String
  context : String
  importance : ℚ
  confidence : ℚ
  source : String
  timestamp : ℤ
  lastAccessed : Option ℤ
  accessCount : ℚ
  tags : List String
  metadata : List (String × Json)
  relationships : List MemoryRelationship
  createdAt : ℤ
  updatedAt : ℤ

/-- `toLowerCase`, structurally. -/
def jsToLower (s : String) : String := ⟨s.data.map Char.toLower⟩

/-- A JavaScript word character (`\w` = `[A-Za-z0-9_]`). -/
def isWordChar (c : Char) : Bool := c.isAlphanum || c = '_'

/-- Split at every character satisfying the separator predicate (empty
    pieces are produced between adjacent separators and at the ends, as
    with `String.split`; the caller filters them out, after which this
    equals splitting at separator runs à la `/\W+/`). -/
def splitRun (p : Char → Bool) : List Char → List Char → List String
  | [], acc => [⟨acc.reverse⟩]
  | c :: cs, acc =>
    if p c then (⟨acc.reverse⟩ : String) :: splitRun p cs []
    else splitRun p cs (c :: acc)

/-- `content.toLowerCase().split(/\W+/).filter(t => t.length > 0)`. -/
def tokenize (s : String) : List String :=
  (splitRun (fun c => !(isWordChar c)) (jsToLower s).data []).filter
    (fun t => t ≠ "")

/-- First-occurrence list of distinct elements (the iteration order of a
    JavaScript `Set`). -/
def distinctList (l : List String) : List String :=
  l.foldl (fun acc t => if acc.contains t then acc else acc ++ [t]) []

/-- `new Set(l).size`. -/
def jsSetSize (l : List String) : ℕ := (distinctList l).length

/-- The similarity `findSimilar` actually computes: the number of
    query-token occurrences (with multiplicity) whose token occurs among
    the candidate's tokens, divided by the size of the union of the two
    token sets (`0` when the union is empty). -/
def codeSimilarity (content mcontent : String) : ℚ :=
  let contentTokens := tokenize content
  let memoryTokens := tokenize mcontent
  let intersection :=
    (contentTokens.filter (fun t => memoryTokens.contains t)).length
  let uni := jsSetSize (contentTokens ++ memoryTokens)
  if uni = 0 then 0 else mkRat intersection uni

/-- The options of `findSimilar`; an absent field is `none` and the
    `options?.x || default` reads treat `0` as absent (JavaScript `||`). -/
structure FSOptions where
  context : List String := []
  threshold : Option ℚ := none
  limit : Option ℕ := none

/-- `options?.threshold || 0.5`. -/
def effThreshold (o : FSOptions) : ℚ :=
  match o.threshold with
  | some t => if t = 0 then mkRat 1 2 else t
  | none => mkRat 1 2

/-- `options?.limit || 10`. -/
def effLimit (o : FSOptions) : ℕ :=
  match o.limit with
  | some n => if n = 0 then 10 else n
  | none => 10

/-- The candidates `findSimilar` fetches: `findAll` under the optional
    context filter (only the first context is used).  `findSimilar` sets
    `filter.context` for any non-empty context array, but
    `buildWhereClause` emits the `context = ?` condition only when the
    value is truthy, so an empty-string context applies no filter. -/
def contextCandidates (store : List Memory) (o : FSOptions) : List Memory :=
  match o.context.head? with
  | some c0 => if c0 = "" then store else store.filter (fun m => m.context = c0)
  | none => store

/-- Descending-similarity order (the comparator
    `(a, b) => b.similarity - a.similarity` of a stable `Array.sort`). -/
def simDescRel : (Memory × ℚ) → (Memory × ℚ) → Prop := fun a b => b.2 ≤ a.2

instance : DecidableRel simDescRel :=
  fun a b => inferInstanceAs (Decidable (b.2 ≤ a.2))

instance : IsTotal (Memory × ℚ) simDescRel := ⟨fun a b => le_total b.2 a.2⟩

instance : IsTrans (Memory × ℚ) simDescRel :=
  ⟨fun _ _ _ h1 h2 => le_trans h2 h1⟩

/-- `MemoryRepository.findSimilar`: score the candidates passing the
    context filter, keep those at or above the threshold, sort by
    descending similarity (stable) and truncate to the limit. -/
def findSimilar (store : List Memory) (content : String) (o : FSOptions) :
    List (Memory × ℚ) :=
  let lim := effLimit o
  let θ := effThreshold o
  let memories := contextCandidates store o
  let results := memories.map (fun m => (m, codeSimilarity content m.content))
  (((results.filter (fun p => θ ≤ p.2)).insertionSort simDescRel).take lim)

/-- The claim's similarity: token-set Jaccard `|A∩B|/|A∪B|` over the two
    deduplicated token sets. -/
def specSetJaccard (a b : String) : ℚ :=
  let As := distinctList (tokenize a)
  let Bs := distinctList (tokenize b)
  let inter := (As.filter (fun t => Bs.contains t)).length
  let uni := jsSetSize (As ++ Bs)
  if uni = 0 then 0 else mkRat inter uni

/-! ### Claim C2 — `findSimilar` -/

/-- A stored memory used by the C2 counterexample and witness. -/
def c2memory : Memory where
  id := some "m1"
  type := .CONCEPT
  content := "alpha beta"
  context := "ctx"
  importance := mkRat 1 2
  confidence := mkRat 1 2
  source := "system"
  timestamp := 0
  lastAccessed := none
  accessCount := 0
  tags := []
  metadata := []
  relationships := []
  createdAt := 0
  updatedAt := 0

/-- C2 as claimed, at one input: for the query `alpha alpha gamma` against
    the stored content `alpha beta`, the token-set Jaccard similarity is
    1/3 — below the default threshold 0.5, so the claim says the memory is
    excluded — yet `findSimilar` counts the duplicated query token twice,
    scores 2/3, and returns the memory (with the similarity 2/3 in the
    result). -/
theorem c2_claim_counterexample :
    findSimilar [c2memory] "alpha alpha gamma" {} = [(c2memory, mkRat 2 3)]
    ∧ specSetJaccard "alpha alpha gamma" c2memory.content = mkRat 1 3
    ∧ specSetJaccard "alpha alpha gamma" c2memory.content < effThreshold {} :=
  ⟨rfl, rfl, by decide⟩

/-- C2 (corrected): `findSimilar` scores each candidate passing the
    context filter with `codeSimilarity` — query-token occurrences counted
    with multiplicity against the candidate's token set, divided by the
    size of the token-set union — and returns the scored candidates at or
    above the threshold, in non-increasing similarity order (ties keep
    candidate order), truncated to the limit: every returned pair is a
    candidate with its score at or above the threshold, and every
    qualifying candidate appears whenever the qualifiers fit the limit. -/
theorem c2_findSimilar_amended (store : List Memory) (content : String)
    (o : FSOptions) :
    List.Sorted simDescRel (findSimilar store content o)
    ∧ (findSimilar store content o).length ≤ effLimit o
    ∧ (∀ p ∈ findSimilar store content o,
        p.1 ∈ contextCandidates store o
        ∧ p.2 = codeSimilarity content p.1.content
        ∧ effThreshold o ≤ p.2)
    ∧ (∀ m ∈ contextCandidates store o,
        effThreshold o ≤ codeSimilarity content m.content →
        ((contextCandidates store o).filter
          (fun m' => effThreshold o ≤ codeSimilarity content m'.content)).length
            ≤ effLimit o →
        (m, codeSimilarity content m.content) ∈ findSimilar store content o) := by
  refine ⟨?_, ?_, ?_, ?_⟩
  · exact List.Pairwise.take
      (List.sorted_insertionSort simDescRel _)
  · rw [show findSimilar store content o
        = ((((contextCandidates store o).map
            (fun m => (m, codeSimilarity content m.content))).filter
          (fun p => effThreshold o ≤ p.2)).insertionSort simDescRel).take
            (effLimit o) from rfl]
    rw [List.length_take]
    exact inf_le_left
  · intro p hp
    have hsort : p ∈ (((contextCandidates store o).map
        (fun m => (m, codeSimilarity content m.content))).filter
          (fun p => effThreshold o ≤ p.2)).insertionSort simDescRel :=
      (List.take_sublist _ _).mem hp
    have hfilt := (List.perm_insertionSort simDescRel _).mem_iff.mp hsort
    have hmem := (List.mem_filter.mp hfilt).1
    have hθ := (List.mem_filter.mp hfilt).2
    obtain ⟨m, hm, hpm⟩ := List.mem_map.mp hmem
    subst hpm
    exact ⟨hm, rfl, by simpa using hθ⟩
  · intro m hm hθ hcount
    have hmem : (m, codeSimilarity content m.content) ∈
        ((contextCandidates store o).map
          (fun m => (m, codeSimilarity content m.content))).filter
            (fun p => effThreshold o ≤ p.2) := by
      rw [List.mem_filter]
      exact ⟨List.mem_map.mpr ⟨m, hm, rfl⟩, by simpa using hθ⟩
    have hlen : (((contextCandidates store o).map
        (fun m => (m, codeSimilarity content m.content))).filter
          (fun p => effThreshold o ≤ p.2)).length
        = ((contextCandidates store o).filter
          (fun m' => effThreshold o ≤ codeSimilarity content m'.content)).length := by
      rw [List.filter_map]
      rw [List.length_map]
      rfl
    have hslen : ((((contextCandidates store o).map
        (fun m => (m, codeSimilarity content m.content))).filter
          (fun p => effThreshold o ≤ p.2)).insertionSort simDescRel).length
        ≤ effLimit o := by
      rw [(List.perm_insertionSort simDescRel _).length_eq, hlen]
      exact hcount
    rw [show findSimilar store content o
        = ((((contextCandidates store o).map
            (fun m => (m, codeSimilarity content m.content))).filter
          (fun p => effThreshold o ≤ p.2)).insertionSort simDescRel).take
            (effLimit o) from rfl]
    rw [List.take_of_length_le hslen]
    exact (List.perm_insertionSort simDescRel _).mem_iff.mpr hmem

/-- Witness for the amended C2: the qualifying memory appears in the
    result and the result is sorted. -/
theorem c2_findSimilar_amended_witness :
    (c2memory, codeSimilarity "alpha alpha gamma" c2memory.content)
      ∈ findSimilar [c2memory] "alpha alpha gamma" {}
    ∧ List.Sorted simDescRel (findSimilar [c2memory] "alpha alpha gamma" {}) :=
  ⟨(c2_findSimilar_amended [c2memory] "alpha alpha gamma" {}).2.2.2 c2memory
    (List.mem_singleton_self c2memory) (by decide) (by decide),
   (c2_findSimilar_amended [c2memory] "alpha alpha gamma" {}).1⟩

/-! ### Entity ⇄ row serialization
    (`TaskRepository.entityToRow/rowToEntity`,
    `MemoryRepository.entityToRow/rowToEntity`)

    Rows carry ISO-8601 date text as `Val.isoText` and JSON text as
    `Val.jsonText` (see the module docstring); a key absent from the
    object spread is emitted with `Val.undefined`, which is indistinguishable
    from a missing property for every lookup.  An enum field travels as
    its string value; decoding maps an unexpected value to the
    `rowToEntity` default for that column. -/

def TaskType.str : TaskType → String
  | .DEVELOPMENT => "DEVELOPMENT"
  | .REVIEW => "REVIEW"
  | .TESTING => "TESTING"
  | .DOCUMENTATION => "DOCUMENTATION"
  | .PLANNING => "PLANNING"
  | .MAINTENANCE => "MAINTENANCE"
  | .SUPPORT => "SUPPORT"

def taskTypeOfStr : String → TaskType
  | "REVIEW" => .REVIEW
  | "TESTING" => .TESTING
  | "DOCUMENTATION" => .DOCUMENTATION
  | "PLANNING" => .PLANNING
  | "MAINTENANCE" => .MAINTENANCE
  | "SUPPORT" => .SUPPORT
  | _ => .DEVELOPMENT

def TaskStatus.str : TaskStatus → String
  | .CREATED => "CREATED"
  | .PLANNED => "PLANNED"
  | .IN_PROGRESS => "IN_PROGRESS"
  | .BLOCKED => "BLOCKED"
  | .REVIEW => "REVIEW"
  | .COMPLETED => "COMPLETED"
  | .CANCELLED => "CANCELLED"

def taskStatusOfStr : String → TaskStatus
  | "PLANNED" => .PLANNED
  | "IN_PROGRESS" => .IN_PROGRESS
  | "BLOCKED" => .BLOCKED
  | "REVIEW" => .REVIEW
  | "COMPLETED" => .COMPLETED
  | "CANCELLED" => .CANCELLED
  | _ => .CREATED

def TaskPriority.str : TaskPriority → String
  | .LOW => "LOW"
  | .MEDIUM => "MEDIUM"
  | .HIGH => "HIGH"
  | .CRITICAL => "CRITICAL"

def taskPriorityOfStr : String → TaskPriority
  | "LOW" => .LOW
  | "HIGH" => .HIGH
  | "CRITICAL" => .CRITICAL
  | _ => .MEDIUM

def MemoryType.str : MemoryType → String
  | .CHAT => "CHAT"
  | .TASK => "TASK"
  | .CODE => "CODE"
  | .DECISION => "DECISION"
  | .INSIGHT => "INSIGHT"
  | .CONCEPT => "CONCEPT"
  | .EVENT => "EVENT"

def memTypeOfStr : String → MemoryType
  | "CHAT" => .CHAT
  | "TASK" => .TASK
  | "CODE" => .CODE
  | "DECISION" => .DECISION
  | "INSIGHT" => .INSIGHT
  | "EVENT" => .EVENT
  | _ => .CONCEPT

def RelationType.str : RelationType → String
  | .SIMILAR_TO => "SIMILAR_TO"
  | .PART_OF => "PART_OF"
  | .DEPENDS_ON => "DEPENDS_ON"
  | .LEADS_TO => "LEADS_TO"
  | .CONTRADICTS => "CONTRADICTS"
  | .SUPPORTS => "SUPPORTS"

def relTypeOfStr : String → RelationType
  | "PART_OF" => .PART_OF
  | "DEPENDS_ON" => .DEPENDS_ON
  | "LEADS_TO" => .LEADS_TO
  | "CONTRADICTS" => .CONTRADICTS
  | "SUPPORTS" => .SUPPORTS
  | _ => .SIMILAR_TO

/-- `row.id || ''` — keeps a non-empty string, anything else becomes the
    empty-string default (for a string `s`, `s || ''` is `s` whether or
    not `s` is empty). -/
def strOfVal : Val → String
  | .str s => s
  | _ => ""

/-- Lookup in a live JSON object (a missing key reads as JSON null). -/
def jGet (fields : List (String × Json)) (k : String) : Json :=
  match fields.find? (fun kv => kv.1 = k) with
  | some kv => kv.2
  | none => .null

/-- A `MemoryRelationship` as the JSON value `JSON.stringify` encodes. -/
def relToJson (r : MemoryRelationship) : Json :=
  .obj [("targetId", .str r.targetId), ("type", .str r.type.str),
        ("strength", .num r.strength), ("metadata", .obj r.metadata)]

/-- Reading a parsed relationship object back (the source uses the parsed
    value as-is; this is the typed view of that value). -/
def relOfJson (e : Json) : MemoryRelationship :=
  match e with
  | .obj fs =>
    { targetId := match jGet fs "targetId" with | .str s => s | _ => ""
      type := match jGet fs "type" with | .str s => relTypeOfStr s | _ => .SIMILAR_TO
      strength := match jGet fs "strength" with | .num q => q | _ => 0
      metadata := match jGet fs "metadata" with | .obj m => m | _ => [] }
  | _ => { targetId := "", type := .SIMILAR_TO, strength := 0, metadata := [] }

def relsToJson (rels : List MemoryRelationship) : Json :=
  .arr (rels.map relToJson)

def relsOfJson (j : Json) : List MemoryRelationship :=
  match j with
  | .arr es => es.map relOfJson
  | _ => []

/-- `TaskRepository.entityToRow`: spread the task, then serialize
    `metadata` (a Record is always truthy, so it is always stringified;
    `null` would be written only for a missing one), `dueDate` (ISO text
    or NULL), `createdAt` (the caller's date — a `Date` object is always
    truthy — or now) and `updatedAt` (always now). -/
def taskEntityToRow (now : ℤ) (t : TaskEnt) : Row :=
  [("id", match t.id with | some i => .str i | none => .undefined),
   ("title", .str t.title),
   ("description", .str t.description),
   ("type", .str t.type.str),
   ("status", .str t.status.str),
   ("priority", .str t.priority.str),
   ("assignee", match t.assignee with | some a => .str a | none => .undefined),
   ("project", match t.project with | some p => .str p | none => .undefined),
   ("metadata", .jsonText (Json.obj t.metadata)),
   ("dueDate", match t.dueDate with | some d => .isoText d | none => .null),
   ("createdAt", .isoText t.createdAt),
   ("updatedAt", .isoText now)]

/-- `TaskRepository.rowToEntity`: spread the defaults then the row, with
    `id` defaulted through `|| ''`, `metadata` JSON-parsed (NULL → `{}`),
    and the date columns re-read as `Date`s (missing dates fall back to
    the `new Date()` defaults, i.e. the current time `now`). -/
def taskRowToEntity (now : ℤ) (row : Row) : TaskEnt where
  id := some (strOfVal (getVal row "id"))
  title := match getVal row "title" with | .str s => s | _ => "無題タスク"
  description := match getVal row "description" with | .str s => s | _ => ""
  type := match getVal row "type" with | .str s => taskTypeOfStr s | _ => .DEVELOPMENT
  status := match getVal row "status" with | .str s => taskStatusOfStr s | _ => .CREATED
  priority := match getVal row "priority" with | .str s => taskPriorityOfStr s | _ => .MEDIUM
  assignee := match getVal row "assignee" with | .str s => some s | _ => none
  project := match getVal row "project" with | .str s => some s | _ => none
  dueDate := match getVal row "dueDate" with | .isoText d => some d | _ => none
  createdAt := match getVal row "createdAt" with | .isoText d => d | _ => now
  updatedAt := match getVal row "updatedAt" with | .isoText d => d | _ => now
  metadata := match getVal row "metadata" with
    | .jsonText (Json.obj fs) => fs
    | _ => []

/-- `MemoryRepository.entityToRow`: spread the memory, serialize
    `timestamp`/`lastAccessed` as ISO text (NULL for a missing
    `lastAccessed`), `tags`/`metadata`/`relationships` as JSON text,
    `createdAt` as the caller's date or now, `updatedAt` as now. -/
def memEntityToRow (now : ℤ) (m : Memory) : Row :=
  [("id", match m.id with | some i => .str i | none => .undefined),
   ("type", .str m.type.str),
   ("content", .str m.content),
   ("context", .str m.context),
   ("importance", .num m.importance),
   ("confidence", .num m.confidence),
   ("source", .str m.source),
   ("accessCount", .num m.accessCount),
   ("timestamp", .isoText m.timestamp),
   ("lastAccessed", match m.lastAccessed with | some d => .isoText d | none => .null),
   ("tags", .jsonText (.arr (m.tags.map Json.str))),
   ("metadata", .jsonText (.obj m.metadata)),
   ("relationships", .jsonText (relsToJson m.relationships)),
   ("createdAt", .isoText m.createdAt),
   ("updatedAt", .isoText now)]

/-- `MemoryRepository.rowToEntity`: spread the defaults then the row, with
    the date columns re-read as `Date`s, the JSON columns parsed, and the
    documented defaults for missing fields. -/
def memRowToEntity (now : ℤ) (row : Row) : Memory where
  id := some (strOfVal (getVal row "id"))
  type := match getVal row "type" with | .str s => memTypeOfStr s | _ => .CONCEPT
  content := match getVal row "content" with | .str s => s | _ => ""
  context := match getVal row "context" with | .str s => s | _ => ""
  importance := match getVal row "importance" with | .num q => q | _ => mkRat 1 2
  confidence := match getVal row "confidence" with | .num q => q | _ => mkRat 1 2
  source := match getVal row "source" with | .str s => s | _ => "system"
  timestamp := match getVal row "timestamp" with | .isoText d => d | _ => now
  lastAccessed := match getVal row "lastAccessed" with | .isoText d => some d | _ => none
  accessCount := match getVal row "accessCount" with | .num q => q | _ => 0
  tags := match getVal row "tags" with
    | .jsonText (.arr es) => es.map (fun e => match e with | .str s => s | _ => "")
    | _ => []
  metadata := match getVal row "metadata" with
    | .jsonText (.obj fs) => fs
    | _ => []
  relationships := match getVal row "relationships" with
    | .jsonText j => relsOfJson j
    | _ => []
  createdAt := match getVal row "createdAt" with | .isoText d => d | _ => now
  updatedAt := match getVal row "updatedAt" with | .isoText d => d | _ => now

theorem taskTypeOfStr_str (ty : TaskType) :
    taskTypeOfStr (TaskType.str ty) = ty := by cases ty <;> rfl

theorem taskStatusOfStr_str (st : TaskStatus) :
    taskStatusOfStr (TaskStatus.str st) = st := by cases st <;> rfl

theorem taskPriorityOfStr_str (pr : TaskPriority) :
    taskPriorityOfStr (TaskPriority.str pr) = pr := by cases pr <;> rfl

theorem memTypeOfStr_str (ty : MemoryType) :
    memTypeOfStr (MemoryType.str ty) = ty := by cases ty <;> rfl

theorem relOfJson_relToJson (r : MemoryRelationship) :
    relOfJson (relToJson r) = r := by
  rcases r with ⟨tid, ty, st, md⟩
  cases ty <;> rfl

theorem relsOfJson_relsToJson (rels : List MemoryRelationship) :
    relsOfJson (relsToJson rels) = rels := by
  show (rels.map relToJson).map relOfJson = rels
  rw [List.map_map]
  show rels.map (fun r => relOfJson (relToJson r)) = rels
  rw [List.map_congr_left (fun r _ => relOfJson_relToJson r)]
  exact List.map_id' rels

theorem tags_decode_encode (ts : List String) :
    (ts.map Json.str).map (fun e => match e with | .str s => s | _ => "")
      = ts := by
  rw [List.map_map]
  exact List.map_id' ts

/-! ### Claim C8 — entity ⇄ row round trip -/

attribute [ext] TaskEnt Memory

/-- A task whose `updatedAt` (5) differs from the conversion time (99). -/
def c8task : TaskEnt where
  id := some "t1"
  title := "Fix login bug"
  description := "details"
  type := .DEVELOPMENT
  status := .CREATED
  priority := .HIGH
  assignee := some "alice"
  project := some "proj"
  dueDate := some 1000
  createdAt := 3
  updatedAt := 5
  metadata := [("k", .str "v")]

/-- C8 as claimed, at one input: `entityToRow` stamps `updatedAt` with the
    current time, so the round trip maps `updatedAt = 5` to the conversion
    time 99 and the round-tripped entity differs from the original on a
    date field. -/
theorem c8_claim_counterexample :
    (taskRowToEntity 0 (taskEntityToRow 99 c8task)).updatedAt = 99
    ∧ c8task.updatedAt = 5
    ∧ taskRowToEntity 0 (taskEntityToRow 99 c8task) ≠ c8task :=
  ⟨rfl, rfl, fun h => by
    have h2 := congrArg TaskEnt.updatedAt h
    rw [show (taskRowToEntity 0 (taskEntityToRow 99 c8task)).updatedAt = 99
        from rfl] at h2
    rw [show c8task.updatedAt = 5 from rfl] at h2
    exact absurd h2 (by decide)⟩

/-- C8 (corrected): for every task and memory entity carrying an id, the
    row round trip reproduces every field except `updatedAt`, which is
    reset to the conversion time: the other dates survive the Date ⇄
    ISO-8601 text conversion and the structured fields (tags, metadata,
    relationships) survive the JSON-text encoding. -/
theorem c8_roundtrip_amended (now now2 : ℤ) (t : TaskEnt) (m : Memory)
    (i j : String) (hti : t.id = some i) (hmj : m.id = some j) :
    taskRowToEntity now2 (taskEntityToRow now t) = { t with updatedAt := now }
    ∧ memRowToEntity now2 (memEntityToRow now m) = { m with updatedAt := now } := by
  constructor
  · rcases t with ⟨tid, tti, tde, tty, tst, tpr, tas, tpj, tdu, tca, tua, tmd⟩
    subst hti
    refine TaskEnt.ext rfl rfl rfl (taskTypeOfStr_str tty)
      (taskStatusOfStr_str tst) (taskPriorityOfStr_str tpr) ?_ ?_ ?_ rfl rfl rfl
    · cases tas <;> rfl
    · cases tpj <;> rfl
    · cases tdu <;> rfl
  · rcases m with ⟨mid, mty, mco, mcx, mim, mcf, msr, mts, mla, mac, mtg, mmd, mrl, mca, mua⟩
    subst hmj
    refine Memory.ext rfl (memTypeOfStr_str mty) rfl rfl rfl rfl rfl rfl ?_ rfl
      (tags_decode_encode mtg) rfl (relsOfJson_relsToJson mrl) rfl rfl
    · cases mla <;> rfl

/-- Witness for the amended C8: the concrete task and the concrete memory
    round-trip to themselves with `updatedAt` stamped to the conversion
    time 7. -/
theorem c8_roundtrip_amended_witness :
    taskRowToEntity 0 (taskEntityToRow 7 c8task) = { c8task with updatedAt := 7 }
    ∧ memRowToEntity 0 (memEntityToRow 7 c2memory) = { c2memory with updatedAt := 7 } :=
  c8_roundtrip_amended 7 0 c8task c2memory "t1" "m1" rfl rfl

/-! ### Claim C1 — `create` and the generated id

    `BaseSQLiteRepository.create` inserts `entityToRow(entity)` minus any
    `id` column and returns `{...entity, id: result.lastID}`.  For the
    TEXT-keyed tables of this repository the inserted row simply has no
    `id` value (SQLite stores NULL — `id TEXT PRIMARY KEY` admits NULL),
    while `lastID` is the table rowid, so the returned id is not the value
    stored in the `id` column. -/

/-- The caller's in-memory task object (live `Date`s and a live metadata
    record), as spread into the returned entity by `create`. -/
def taskToObj (t : TaskEnt) : Row :=
  [("id", match t.id with | some i => .str i | none => .undefined),
   ("title", .str t.title),
   ("description", .str t.description),
   ("type", .str t.type.str),
   ("status", .str t.status.str),
   ("priority", .str t.priority.str),
   ("assignee", match t.assignee with | some a => .str a | none => .undefined),
   ("project", match t.project with | some p => .str p | none => .undefined),
   ("dueDate", match t.dueDate with | some d => .date d | none => .undefined),
   ("createdAt", .date t.createdAt),
   ("updatedAt", .date t.updatedAt),
   ("metadata", .live (.obj t.metadata))]

/-- `TaskRepository`'s `create`: the generic `create` applied to this
    repository's `entityToRow`. -/
def taskCreate (now : ℤ) (tbl : Table) (t : TaskEnt) : Row × Table :=
  repoCreate tbl (taskToObj t) (taskEntityToRow now t)

/-- The task supplied without an id in the C1 counterexample; the caller
    supplies `createdAt = 7` while the clock reads 99. -/
def c1task : TaskEnt where
  id := none
  title := "Fix login bug"
  description := ""
  type := .DEVELOPMENT
  status := .CREATED
  priority := .HIGH
  assignee := none
  project := none
  dueDate := none
  createdAt := 7
  updatedAt := 7
  metadata := []

/-- C1 as claimed, at one input: on an empty table (next rowid 1) the
    returned entity's id is the driver's `lastID` (the number 1), but the
    stored row has no `id` column at all (SQL NULL), so the returned id is
    not the stored primary-key value; and the stored `createdAt` is the
    caller's 7, not a repository-assigned timestamp (the clock reads 99). -/
theorem c1_claim_counterexample :
    getVal (taskCreate 99 ⟨[], 1⟩ c1task).1 "id" = .num 1
    ∧ ((taskCreate 99 ⟨[], 1⟩ c1task).2.rows.map (fun r => getVal r "id"))
      = [.undefined]
    ∧ Val.num 1 ≠ Val.undefined
    ∧ ((taskCreate 99 ⟨[], 1⟩ c1task).2.rows.map (fun r => getVal r "createdAt"))
      = [.isoText 7]
    ∧ Val.isoText 7 ≠ Val.isoText 99 :=
  ⟨rfl, rfl, fun h => Val.noConfusion h, rfl, fun h => by
    injection h with h2
    exact absurd h2 (by decide)⟩

/-- C1 (corrected): `create` on an id-less task inserts
    `entityToRow(entity)` with the `id` column omitted (stored as SQL
    NULL) and returns the caller's entity object with `id` set to the
    driver's `lastID` (the allocated rowid, a number); the stored row's
    `updatedAt` is repository-assigned (the current time) but its
    `createdAt` is the caller's value, and the returned id does not match
    the stored row under `WHERE id = ?`. -/
theorem c1_create_amended (now : ℤ) (tbl : Table) (t : TaskEnt)
    (ht : t.id = none) :
    getVal (taskCreate now tbl t).1 "id" = .num (tbl.nextRowid : ℚ)
    ∧ (taskCreate now tbl t).2.rows
      = tbl.rows ++ ([(taskEntityToRow now t).filter
          (fun kv => decide (kv.1 ≠ "id"))] : List Row)
    ∧ ((taskEntityToRow now t).filter
        (fun kv => decide (kv.1 ≠ "id"))).find? (fun kv => kv.1 = "id") = none
    ∧ getVal ((taskEntityToRow now t).filter
        (fun kv => decide (kv.1 ≠ "id"))) "updatedAt" = .isoText now
    ∧ getVal ((taskEntityToRow now t).filter
        (fun kv => decide (kv.1 ≠ "id"))) "createdAt" = .isoText t.createdAt
    ∧ sqlValEq
        (getVal ((taskEntityToRow now t).filter
          (fun kv => decide (kv.1 ≠ "id"))) "id")
        (.num (tbl.nextRowid : ℚ)) = false := by
  refine ⟨?_, rfl, ?_, rfl, rfl, rfl⟩
  · exact getVal_objSet_same (taskToObj t) "id" (.num (tbl.nextRowid : ℚ))
  · rw [List.find?_eq_none]
    intro kv hkv
    have h := (List.mem_filter.mp hkv).2
    simpa using h

/-- Witness for the amended C1 at the concrete task and an empty table. -/
theorem c1_create_amended_witness :
    getVal (taskCreate 99 ⟨[], 1⟩ c1task).1 "id" = .num 1
    ∧ (taskCreate 99 ⟨[], 1⟩ c1task).2.rows
      = [] ++ ([(taskEntityToRow 99 c1task).filter
          (fun kv => decide (kv.1 ≠ "id"))] : List Row)
    ∧ getVal ((taskEntityToRow 99 c1task).filter
        (fun kv => decide (kv.1 ≠ "id"))) "updatedAt" = .isoText 99 :=
  ⟨(c1_create_amended 99 ⟨[], 1⟩ c1task rfl).1,
   (c1_create_amended 99 ⟨[], 1⟩ c1task rfl).2.1,
   (c1_create_amended 99 ⟨[], 1⟩ c1task rfl).2.2.2.1⟩
